import Mathlib

/-!
Verification of the City of Playford development-application scraper
(`scraper.ts`) against its natural-language specification.

The file shallowly embeds the scraper's column-mapping and
record-normalization pipeline:

* string cleaning (`trimJS`, `collapseWS`) models the JavaScript
  `String.prototype.trim` and the regex replacement `\s\s+` with a single
  space (scraper.ts line 146);
* `momentStrictParse` / `normalizeDate` model the external moment.js call
  `moment(input, "D/MM/YYYY HH:mm:ss A", true)` followed by
  `isValid() ? format("YYYY-MM-DD") : ""` (scraper.ts lines 144 and 156):
  strict-mode parsing of this fixed format is an anchored, whole-string
  match of the token sequence, where `D` matches one or two digits
  (greedy), `MM`, `HH`, `mm`, `ss` match exactly two digits, `YYYY`
  matches exactly four digits, and the meridiem token matches the locale
  pattern (`a` or `p`, case-insensitively, each optionally followed by a
  period, an `m`, and a period); validity further requires month 1-12,
  day within the (Gregorian, leap-aware) month, minute and second at most
  59, and hour (after meridiem adjustment) at most 24, where hour 24 with
  zero minutes and seconds rolls the date to the following day;
* `locateColumns` models the header scan (scraper.ts lines 111-129);
* `extractRecord` models the per-row extraction (lines 138-157), with
  out-of-bounds cell access modelled as `Except.error` (the JavaScript
  code would throw on `undefined.trim()`);
* `insertOrIgnore` / `insertRowE` model `insertRow` over the sqlite table
  whose primary key is the application number, with a storage-fault
  oracle standing in for the external sqlite layer (lines 34-61);
* `runRows`, `processCsv`, `runMain` model the driver loops of `main`
  (lines 102-159).
-/

namespace Playford

/-- The set of characters treated as whitespace both by JavaScript
`String.prototype.trim` and by the regex class `\s`. -/
def isJsWhitespace (c : Char) : Bool :=
  c = ' ' || c = '\t' || c = '\n' || c.val = 11 || c.val = 12 || c = '\r' ||
  c.val = 160 || c.val = 0x1680 || (0x2000 ≤ c.val && c.val ≤ 0x200a) ||
  c.val = 0x2028 || c.val = 0x2029 || c.val = 0x202f || c.val = 0x205f ||
  c.val = 0x3000 || c.val = 0xfeff

/-- JavaScript `String.prototype.trim`: remove leading and trailing
whitespace. -/
def trimJS (s : String) : String :=
  String.mk (((s.toList.dropWhile isJsWhitespace).reverse.dropWhile isJsWhitespace).reverse)

/-- One left-to-right pass of the global regex replacement
`replace(/\s\s+/g, " ")`: every run of two or more whitespace characters
is replaced by a single space; a lone whitespace character is left as it
is.  The flag records being inside a run that has already been replaced. -/
def collapseAux : Bool → List Char → List Char
  | _, [] => []
  | true, c :: rest =>
    if isJsWhitespace c then collapseAux true rest
    else c :: collapseAux false rest
  | false, [c] => [c]
  | false, c :: c2 :: rest2 =>
    if isJsWhitespace c then
      if isJsWhitespace c2 then ' ' :: collapseAux true rest2
      else c :: collapseAux false (c2 :: rest2)
    else c :: collapseAux false (c2 :: rest2)

/-- `s.replace(/\s\s+/g, " ")` (scraper.ts line 146). -/
def collapseWS (s : String) : String :=
  String.mk (collapseAux false s.toList)

/-- The address combination of scraper.ts lines 145-146: concatenate the
two fragments with a single-space separator exactly when both are
non-empty, then trim and collapse interior whitespace runs. -/
def combineAddress (a1 a2 : String) : String :=
  collapseWS (trimJS (a1 ++ (if a1 ≠ "" ∧ a2 ≠ "" then " " else "") ++ a2))

/-- Numeric value of a decimal digit character. -/
def digitVal (c : Char) : Nat := c.toNat - 48

/-- Moment token `MM` / `HH` / `mm` / `ss` in strict mode: exactly two
digits. -/
def take2 : List Char → Option (Nat × List Char)
  | c1 :: c2 :: rest =>
    if c1.isDigit && c2.isDigit then some (10 * digitVal c1 + digitVal c2, rest) else none
  | _ => none

/-- Moment token `YYYY` in strict mode: exactly four digits. -/
def take4 : List Char → Option (Nat × List Char)
  | c1 :: c2 :: c3 :: c4 :: rest =>
    if c1.isDigit && c2.isDigit && c3.isDigit && c4.isDigit then
      some (1000 * digitVal c1 + 100 * digitVal c2 + 10 * digitVal c3 + digitVal c4, rest)
    else none
  | _ => none

/-- Moment token `D`: one or two digits, matched greedily (the leading
zero of the day may be omitted, per the comment on scraper.ts line 144). -/
def take1or2 : List Char → Option (Nat × List Char)
  | [] => none
  | [c1] => if c1.isDigit then some (digitVal c1, []) else none
  | c1 :: c2 :: rest =>
    if c1.isDigit then
      if c2.isDigit then some (10 * digitVal c1 + digitVal c2, rest)
      else some (digitVal c1, c2 :: rest)
    else none

/-- A literal separator character of the format string. -/
def lit (ch : Char) : List Char → Option (List Char)
  | c :: rest => if c = ch then some rest else none
  | [] => none

/-- Consume `ch` if it is the next character, else leave the input
unchanged. -/
def optLit (ch : Char) : List Char → List Char
  | [] => []
  | c :: rest => if c = ch then rest else c :: rest

/-- Consume a letter `m` or `M` if it is next, else leave the input
unchanged. -/
def optM : List Char → List Char
  | [] => []
  | c :: rest => if c = 'm' ∨ c = 'M' then rest else c :: rest

/-- The moment meridiem token `A`, whose locale pattern is the
case-insensitive regex of an `a` or `p` optionally followed by a period,
an `m`, and a period.  Returns whether the marker denotes PM. -/
def meridiemTake : List Char → Option (Bool × List Char)
  | [] => none
  | c :: rest =>
    if c = 'a' ∨ c = 'A' then some (false, optLit '.' (optM (optLit '.' rest)))
    else if c = 'p' ∨ c = 'P' then some (true, optLit '.' (optM (optLit '.' rest)))
    else none

/-- Gregorian leap year. -/
def leapYear (y : Nat) : Bool := (y % 4 = 0 && y % 100 ≠ 0) || y % 400 = 0

/-- Days in a month of the Gregorian calendar. -/
def daysInMonth (y m : Nat) : Nat :=
  if m = 2 then (if leapYear y then 29 else 28)
  else if m = 4 ∨ m = 6 ∨ m = 9 ∨ m = 11 then 30
  else 31

/-- The calendar day after `(y, m, d)`. -/
def nextDay (y m d : Nat) : Nat × Nat × Nat :=
  if d < daysInMonth y m then (y, m, d + 1)
  else if m < 12 then (y, m + 1, 1)
  else (y + 1, 1, 1)

/-- The anchored token chain of the format `D/MM/YYYY HH:mm:ss A`: the
whole input must be consumed.  Yields day, month, year, hour, minute,
second and the PM flag. -/
def parseFields (s : String) : Option (Nat × Nat × Nat × Nat × Nat × Nat × Bool) := do
  let (d, r1) ← take1or2 s.toList
  let r2 ← lit '/' r1
  let (mo, r3) ← take2 r2
  let r4 ← lit '/' r3
  let (y, r5) ← take4 r4
  let r6 ← lit ' ' r5
  let (h, r7) ← take2 r6
  let r8 ← lit ':' r7
  let (mi, r9) ← take2 r8
  let r10 ← lit ':' r9
  let (se, r11) ← take2 r10
  let r12 ← lit ' ' r11
  let (pm, r13) ← meridiemTake r12
  if r13 = [] then some (d, mo, y, h, mi, se, pm) else none

/-- `moment(s, "D/MM/YYYY HH:mm:ss A", true)`: strict parse followed by
the validity check, returning the calendar date the moment object holds.
The meridiem adjusts the hour (12 AM becomes 0, PM adds 12 below 12);
the result is valid when month, day, minute, second are in range and the
adjusted hour is at most 24, hour 24 being allowed only at 00:00 and
rolling the held date to the following day. -/
def momentStrictParse (s : String) : Option (Nat × Nat × Nat) :=
  match parseFields s with
  | none => none
  | some (d, mo, y, h, mi, se, pm) =>
    if (1 ≤ mo ∧ mo ≤ 12) ∧ (1 ≤ d ∧ d ≤ daysInMonth y mo) ∧
       ((if pm then (if h < 12 then h + 12 else h) else (if h = 12 then 0 else h)) ≤ 24 ∧
        ((if pm then (if h < 12 then h + 12 else h) else (if h = 12 then 0 else h)) = 24 →
          mi = 0 ∧ se = 0)) ∧ mi ≤ 59 ∧ se ≤ 59 then
      some (if (if pm then (if h < 12 then h + 12 else h) else (if h = 12 then 0 else h)) = 24
            then nextDay y mo d else (y, mo, d))
    else none

/-- Left-pad to two digits, as moment `MM` / `DD` output tokens. -/
def pad2 (n : Nat) : String := if n < 10 then "0" ++ toString n else toString n

/-- Left-pad to four digits, as the moment `YYYY` output token. -/
def pad4 (n : Nat) : String :=
  if n < 10 then "000" ++ toString n
  else if n < 100 then "00" ++ toString n
  else if n < 1000 then "0" ++ toString n
  else toString n

/-- `format("YYYY-MM-DD")` on a held calendar date. -/
def formatYMD : Nat × Nat × Nat → String
  | (y, m, d) => pad4 y ++ "-" ++ pad2 m ++ "-" ++ pad2 d

/-- Lines 144 and 156 of scraper.ts: `moment(raw, "D/MM/YYYY HH:mm:ss A",
true)` on the raw cell (or on `null` when the column is absent), then
`isValid() ? format("YYYY-MM-DD") : ""`. -/
def normalizeDate : Option String → String
  | none => ""
  | some s =>
    match momentStrictParse s with
    | some ymd => formatYMD ymd
    | none => ""

/-- The token chain of the pattern exactly as the specification words it:
day of one or two digits, slash, month of exactly two digits, slash, year
of exactly four digits, space, two-digit hour, colon, two-digit minute,
colon, two-digit second, space, and a marker that is literally "AM" or
"PM"; nothing before or after. -/
def parseFieldsSpecMer (s : String) : Option (Nat × Nat × Nat × Nat × Nat × Nat) := do
  let (d, r1) ← take1or2 s.toList
  let r2 ← lit '/' r1
  let (mo, r3) ← take2 r2
  let r4 ← lit '/' r3
  let (y, r5) ← take4 r4
  let r6 ← lit ' ' r5
  let (h, r7) ← take2 r6
  let r8 ← lit ':' r7
  let (mi, r9) ← take2 r8
  let r10 ← lit ':' r9
  let (se, r11) ← take2 r10
  let r12 ← lit ' ' r11
  if r12 = ['A', 'M'] ∨ r12 = ['P', 'M'] then some (d, mo, y, h, mi, se) else none

/-- Modelled from the spec: the conformance predicate of claim C2 as
written — the input conforms exactly to the pattern
day(1-2 digits)/month(2 digits)/year(4 digits) hour:minute:second
AM-or-PM and encodes a valid calendar value (month 1-12, day within the
month, hour at most 23, minute and second at most 59). -/
def specConformsDMY (s : String) : Bool :=
  match parseFieldsSpecMer s with
  | none => false
  | some (d, mo, y, h, mi, se) =>
    decide ((1 ≤ mo ∧ mo ≤ 12) ∧ (1 ≤ d ∧ d ≤ daysInMonth y mo) ∧ h ≤ 23 ∧ mi ≤ 59 ∧ se ≤ 59)

/-- Modelled from the spec, as amended: same token chain, the meridiem
marker matched leniently (case-insensitive `a` or `p`, optional periods
and `m`), the written hour allowed up to 24 with 24 requiring 00 minutes
and seconds, in which case the resulting date is the following day. -/
def specAmendedParse (s : String) : Option (Nat × Nat × Nat) :=
  match parseFields s with
  | none => none
  | some (d, mo, y, h, mi, se, _) =>
    if (1 ≤ mo ∧ mo ≤ 12) ∧ (1 ≤ d ∧ d ≤ daysInMonth y mo) ∧
       (h ≤ 24 ∧ (h = 24 → mi = 0 ∧ se = 0)) ∧ mi ≤ 59 ∧ se ≤ 59 then
      some (if h = 24 then nextDay y mo d else (y, mo, d))
    else none

/-- Modelled from the spec, as amended: empty string on a missing input
or any input failing `specAmendedParse`, otherwise the resulting date as
YYYY-MM-DD. -/
def specAmendedNormalize : Option String → String
  | none => ""
  | some s =>
    match specAmendedParse s with
    | some ymd => formatYMD ymd
    | none => ""

/-- The fixed contact address constant of scraper.ts line 18. -/
def CommentUrl : String := "mailto:Playford@playford.sa.gov.au"

/-- The canonical record assembled by scraper.ts lines 149-157. -/
structure Record where
  applicationNumber : String
  address : String
  description : String
  informationUrl : String
  commentUrl : String
  scrapeDate : String
  receivedDate : String
deriving DecidableEq, Repr

/-- The five column-index slots of scraper.ts lines 111-115, each holding
a column index or the absent marker -1. -/
structure HeaderMapping where
  applicationNumberColumnIndex : Int
  receivedDateColumnIndex : Int
  descriptionColumnIndex : Int
  addressColumnIndex1 : Int
  addressColumnIndex2 : Int
deriving DecidableEq, Repr

/-- All five slots start at the absent marker (lines 111-115). -/
def initialMapping : HeaderMapping :=
  { applicationNumberColumnIndex := -1, receivedDateColumnIndex := -1,
    descriptionColumnIndex := -1, addressColumnIndex1 := -1, addressColumnIndex2 := -1 }

/-- One iteration of the header scan (scraper.ts lines 118-128): compare
the cell by exact string equality against the five recognized names and
overwrite the matching slot with the current index. -/
def locateStep (m : HeaderMapping) (i : Int) (cell : String) : HeaderMapping :=
  if cell = "ApplicationNumber" then { m with applicationNumberColumnIndex := i }
  else if cell = "LodgementDate" then { m with receivedDateColumnIndex := i }
  else if cell = "ApplicationDesc" then { m with descriptionColumnIndex := i }
  else if cell = "PropertyAddress" then { m with addressColumnIndex1 := i }
  else if cell = "PropertySuburbPostCode" then { m with addressColumnIndex2 := i }
  else m

/-- The header scan from position `i` onward. -/
def locateColumnsFrom (m : HeaderMapping) (i : Int) : List String → HeaderMapping
  | [] => m
  | c :: cs => locateColumnsFrom (locateStep m i c) (i + 1) cs

/-- The field locator (scraper.ts lines 111-129): left-to-right scan of
the header row. -/
def locateColumns (header : List String) : HeaderMapping :=
  locateColumnsFrom initialMapping 0 header

/-- Index of the last occurrence of `name` in a list, or -1 when absent. -/
def lastOccurrence (name : String) : List String → Int
  | [] => -1
  | c :: cs =>
    if lastOccurrence name cs = -1 then (if c = name then 0 else -1)
    else lastOccurrence name cs + 1

/-- Reading cell `i` of a row.  JavaScript `row[i]` yields `undefined`
outside the bounds and the subsequent `.trim()` call throws, modelled as
`Except.error`. -/
def getCellE (row : List String) (i : Int) : Except Unit String :=
  if 0 ≤ i ∧ i.toNat < row.length then Except.ok (row.getD i.toNat "") else Except.error ()

/-- A guarded cell read: the empty string when the slot is absent (the
ternary guards of scraper.ts lines 141-144), else the cell itself. -/
def optCellE (row : List String) (i : Int) : Except Unit String :=
  if i < 0 then Except.ok "" else getCellE row i

/-- `Except.bind`, written out for rewriting. -/
def exbind (x : Except Unit String) (f : String → Except Unit (Option Record)) :
    Except Unit (Option Record) :=
  match x with
  | Except.error e => Except.error e
  | Except.ok a => f a

/-- The record extractor (scraper.ts lines 138-157) for one data row:
read the application-number cell, the two address cells, the description
cell and the raw date cell (absent slots read as empty / null), combine
the address, and emit a record exactly when the trimmed application
number and the combined address are both non-empty, defaulting an empty
description to the sentinel.  Cell reads follow the evaluation order of
lines 140-144. -/
def extractRecord (m : HeaderMapping) (url scrapeDate : String) (row : List String) :
    Except Unit (Option Record) :=
  exbind (getCellE row m.applicationNumberColumnIndex) (fun cellApp =>
  exbind (optCellE row m.addressColumnIndex1) (fun cellA1 =>
  exbind (optCellE row m.addressColumnIndex2) (fun cellA2 =>
  exbind (optCellE row m.descriptionColumnIndex) (fun cellDesc =>
  exbind (optCellE row m.receivedDateColumnIndex) (fun cellRecv =>
    let applicationNumber := trimJS cellApp
    let address1 := if m.addressColumnIndex1 < 0 then "" else trimJS cellA1
    let address2 := if m.addressColumnIndex2 < 0 then "" else trimJS cellA2
    let description := if m.descriptionColumnIndex < 0 then "" else trimJS cellDesc
    let receivedRaw : Option String :=
      if m.receivedDateColumnIndex < 0 then none else some (trimJS cellRecv)
    let address := combineAddress address1 address2
    if applicationNumber ≠ "" ∧ address ≠ "" then
      Except.ok (some
        { applicationNumber := applicationNumber
          address := address
          description := if description = "" then "No description provided" else description
          informationUrl := url
          commentUrl := CommentUrl
          scrapeDate := scrapeDate
          receivedDate := normalizeDate receivedRaw })
    else Except.ok none)))))

/-- `insert or ignore` into the table keyed by the application number
(scraper.ts lines 26 and 36): a no-op reporting `false` when a row with
the same key exists, otherwise append and report `true`. -/
def insertOrIgnore (db : List Record) (r : Record) : List Record × Bool :=
  if db.any (fun x => x.applicationNumber = r.applicationNumber) then (db, false)
  else (db ++ [r], true)

/-- `insertRow` (scraper.ts lines 34-61) with the sqlite layer modelled
by a fault oracle: a storage-layer error is rejected to the caller
unchanged (no retry, nothing stored); otherwise the insert-or-ignore
semantics apply and the created flag reflects `this.changes`. -/
def insertRowE (faulty : Record → Bool) (db : List Record) (r : Record) :
    Except Unit (List Record × Bool) :=
  if faulty r then Except.error () else Except.ok (insertOrIgnore db r)

/-- The row loop of scraper.ts lines 138-158: each row is extracted and,
when a record is emitted, awaited into the store before the next row; a
thrown error aborts the loop. -/
def runRows (faulty : Record → Bool) (m : HeaderMapping) (url scrapeDate : String)
    (db : List Record) : List (List String) → Except Unit (List Record)
  | [] => Except.ok db
  | row :: rest =>
    match extractRecord m url scrapeDate row with
    | Except.error e => Except.error e
    | Except.ok none => runRows faulty m url scrapeDate db rest
    | Except.ok (some r) =>
      match insertRowE faulty db r with
      | Except.error e => Except.error e
      | Except.ok (db2, _) => runRows faulty m url scrapeDate db2 rest

/-- Processing of one CSV (scraper.ts lines 105-158): an empty CSV is
skipped; otherwise the header is located and, when the application-number
slot is absent or both address slots are absent, the whole CSV is skipped
(line 131); otherwise every data row is extracted and stored. -/
def processCsv (faulty : Record → Bool) (url scrapeDate : String) (db : List Record)
    (rows : List (List String)) : Except Unit (List Record) :=
  match rows with
  | [] => Except.ok db
  | header :: dataRows =>
    let m := locateColumns header
    if m.applicationNumberColumnIndex < 0 ∨
       (m.addressColumnIndex1 < 0 ∧ m.addressColumnIndex2 < 0) then Except.ok db
    else runRows faulty m url scrapeDate db dataRows

/-- The driver loop over the selected CSV sources (scraper.ts lines
102-159): sequential, a propagated error aborting the remaining
sources. -/
def runMain (faulty : Record → Bool) (scrapeDate : String) (db : List Record) :
    List (String × List (List String)) → Except Unit (List Record)
  | [] => Except.ok db
  | (url, rows) :: rest =>
    match processCsv faulty url scrapeDate db rows with
    | Except.error e => Except.error e
    | Except.ok db2 => runMain faulty scrapeDate db2 rest

/-- A storage layer that never faults. -/
def noFault : Record → Bool := fun _ => false

/-- Whether an extraction ended without a thrown error. -/
def exceptOk : Except Unit (Option Record) → Bool
  | Except.ok _ => true
  | Except.error _ => false

/-- The trimmed application-number cell of a row under a mapping (total
rephrasing of line 140, meaningful when the slot is present and in
bounds). -/
def appNumberSource (m : HeaderMapping) (row : List String) : String :=
  trimJS (row.getD m.applicationNumberColumnIndex.toNat "")

/-- The trimmed first address fragment (line 141). -/
def addr1Source (m : HeaderMapping) (row : List String) : String :=
  if m.addressColumnIndex1 < 0 then "" else trimJS (row.getD m.addressColumnIndex1.toNat "")

/-- The trimmed second address fragment (line 142). -/
def addr2Source (m : HeaderMapping) (row : List String) : String :=
  if m.addressColumnIndex2 < 0 then "" else trimJS (row.getD m.addressColumnIndex2.toNat "")

/-- The combined, normalized address of a row (lines 145-146). -/
def addressSource (m : HeaderMapping) (row : List String) : String :=
  combineAddress (addr1Source m row) (addr2Source m row)

/-- The trimmed description cell, empty when the slot is absent
(line 143). -/
def descSource (m : HeaderMapping) (row : List String) : String :=
  if m.descriptionColumnIndex < 0 then "" else trimJS (row.getD m.descriptionColumnIndex.toNat "")

/-- The raw date input handed to the date normalizer (line 144). -/
def recvSource (m : HeaderMapping) (row : List String) : Option String :=
  if m.receivedDateColumnIndex < 0 then none
  else some (trimJS (row.getD m.receivedDateColumnIndex.toNat ""))

/-- The slot invariant of the field locator: a present slot is a valid
index of the header row and names the recognized header. -/
def slotInv (i : Int) (header : List String) (name : String) : Prop :=
  i ≠ -1 → 0 ≤ i ∧ i.toNat < header.length ∧ header.getD i.toNat "" = name

lemma getCellE_ok_val (row : List String) (i : Int) (c : String)
    (h : getCellE row i = Except.ok c) : c = row.getD i.toNat "" := by
  unfold getCellE at h
  split at h
  · exact (Except.ok.inj h).symm
  · exact Except.noConfusion h

lemma getCellE_ok_bounds (row : List String) (i : Int) (c : String)
    (h : getCellE row i = Except.ok c) : 0 ≤ i ∧ i.toNat < row.length := by
  unfold getCellE at h
  split at h
  · next hc => exact hc
  · exact Except.noConfusion h

lemma getCellE_is_ok (row : List String) (i : Int) (h1 : 0 ≤ i) (h2 : i.toNat < row.length) :
    getCellE row i = Except.ok (row.getD i.toNat "") := by
  unfold getCellE
  rw [if_pos ⟨h1, h2⟩]

lemma optCellE_ok_str (row : List String) (i : Int) (c : String)
    (h : optCellE row i = Except.ok c) :
    (if i < 0 then "" else trimJS c) = (if i < 0 then "" else trimJS (row.getD i.toNat "")) := by
  by_cases hi : i < 0
  · rw [if_pos hi, if_pos hi]
  · rw [if_neg hi, if_neg hi]
    unfold optCellE at h
    rw [if_neg hi] at h
    rw [getCellE_ok_val row i c h]

lemma optCellE_ok_opt (row : List String) (i : Int) (c : String)
    (h : optCellE row i = Except.ok c) :
    (if i < 0 then (none : Option String) else some (trimJS c)) =
      (if i < 0 then none else some (trimJS (row.getD i.toNat ""))) := by
  by_cases hi : i < 0
  · rw [if_pos hi, if_pos hi]
  · rw [if_neg hi, if_neg hi]
    unfold optCellE at h
    rw [if_neg hi] at h
    rw [getCellE_ok_val row i c h]

lemma optCellE_exists_ok (row : List String) (i : Int)
    (h : i < 0 ∨ (0 ≤ i ∧ i.toNat < row.length)) :
    ∃ c, optCellE row i = Except.ok c := by
  unfold optCellE
  rcases h with h | h
  · rw [if_pos h]
    exact ⟨"", rfl⟩
  · rw [if_neg (by omega), getCellE_is_ok row i h.1 h.2]
    exact ⟨_, rfl⟩

lemma lastOccurrence_ge (name : String) : ∀ cs : List String, -1 ≤ lastOccurrence name cs
  | [] => by simp [lastOccurrence]
  | c :: cs => by
    have ih := lastOccurrence_ge name cs
    unfold lastOccurrence
    split
    · split <;> omega
    · omega

lemma locateStep_app (m : HeaderMapping) (i : Int) (c : String) :
    (locateStep m i c).applicationNumberColumnIndex =
      if c = "ApplicationNumber" then i else m.applicationNumberColumnIndex := by
  unfold locateStep
  by_cases h1 : c = "ApplicationNumber"
  · rw [if_pos h1, if_pos h1]
  · rw [if_neg h1, if_neg h1]
    split
    · rfl
    · split
      · rfl
      · split
        · rfl
        · split <;> rfl

lemma locateStep_recv (m : HeaderMapping) (i : Int) (c : String) :
    (locateStep m i c).receivedDateColumnIndex =
      if c = "LodgementDate" then i else m.receivedDateColumnIndex := by
  unfold locateStep
  by_cases h1 : c = "ApplicationNumber"
  · subst h1
    rw [if_pos rfl, if_neg (by decide)]
  · rw [if_neg h1]
    by_cases h2 : c = "LodgementDate"
    · rw [if_pos h2, if_pos h2]
    · rw [if_neg h2, if_neg h2]
      split
      · rfl
      · split
        · rfl
        · split <;> rfl

lemma locateStep_desc (m : HeaderMapping) (i : Int) (c : String) :
    (locateStep m i c).descriptionColumnIndex =
      if c = "ApplicationDesc" then i else m.descriptionColumnIndex := by
  unfold locateStep
  by_cases h1 : c = "ApplicationNumber"
  · subst h1
    rw [if_pos rfl, if_neg (by decide)]
  · rw [if_neg h1]
    by_cases h2 : c = "LodgementDate"
    · subst h2
      rw [if_pos rfl, if_neg (by decide)]
    · rw [if_neg h2]
      by_cases h3 : c = "ApplicationDesc"
      · rw [if_pos h3, if_pos h3]
      · rw [if_neg h3, if_neg h3]
        split
        · rfl
        · split <;> rfl

lemma locateStep_a1 (m : HeaderMapping) (i : Int) (c : String) :
    (locateStep m i c).addressColumnIndex1 =
      if c = "PropertyAddress" then i else m.addressColumnIndex1 := by
  unfold locateStep
  by_cases h1 : c = "ApplicationNumber"
  · subst h1
    rw [if_pos rfl, if_neg (by decide)]
  · rw [if_neg h1]
    by_cases h2 : c = "LodgementDate"
    · subst h2
      rw [if_pos rfl, if_neg (by decide)]
    · rw [if_neg h2]
      by_cases h3 : c = "ApplicationDesc"
      · subst h3
        rw [if_pos rfl, if_neg (by decide)]
      · rw [if_neg h3]
        by_cases h4 : c = "PropertyAddress"
        · rw [if_pos h4, if_pos h4]
        · rw [if_neg h4, if_neg h4]
          split <;> rfl

lemma locateStep_a2 (m : HeaderMapping) (i : Int) (c : String) :
    (locateStep m i c).addressColumnIndex2 =
      if c = "PropertySuburbPostCode" then i else m.addressColumnIndex2 := by
  unfold locateStep
  by_cases h1 : c = "ApplicationNumber"
  · subst h1
    rw [if_pos rfl, if_neg (by decide)]
  · rw [if_neg h1]
    by_cases h2 : c = "LodgementDate"
    · subst h2
      rw [if_pos rfl, if_neg (by decide)]
    · rw [if_neg h2]
      by_cases h3 : c = "ApplicationDesc"
      · subst h3
        rw [if_pos rfl, if_neg (by decide)]
      · rw [if_neg h3]
        by_cases h4 : c = "PropertyAddress"
        · subst h4
          rw [if_pos rfl, if_neg (by decide)]
        · rw [if_neg h4]
          by_cases h5 : c = "PropertySuburbPostCode"
          · rw [if_pos h5, if_pos h5]
          · rw [if_neg h5, if_neg h5]

lemma locate_general (f : HeaderMapping → Int) (name : String)
    (hf : ∀ m i c, f (locateStep m i c) = if c = name then i else f m) :
    ∀ (cs : List String) (m : HeaderMapping) (i : Int),
      f (locateColumnsFrom m i cs) =
        if lastOccurrence name cs = -1 then f m else i + lastOccurrence name cs := by
  intro cs
  induction cs with
  | nil =>
    intro m i
    simp [locateColumnsFrom, lastOccurrence]
  | cons c cs ih =>
    intro m i
    have hstep : locateColumnsFrom m i (c :: cs) = locateColumnsFrom (locateStep m i c) (i + 1) cs := rfl
    rw [hstep, ih, hf]
    have hL : lastOccurrence name (c :: cs) =
        if lastOccurrence name cs = -1 then (if c = name then 0 else -1)
        else lastOccurrence name cs + 1 := rfl
    rw [hL]
    by_cases h1 : lastOccurrence name cs = -1
    · rw [if_pos h1, if_pos h1]
      by_cases h2 : c = name
      · rw [if_pos h2, if_pos h2, if_neg (by omega)]
        omega
      · rw [if_neg h2, if_neg h2, if_pos rfl]
    · have hge := lastOccurrence_ge name cs
      rw [if_neg h1, if_neg h1, if_neg (by omega)]
      omega

lemma locate_app_eq (header : List String) :
    (locateColumns header).applicationNumberColumnIndex =
      lastOccurrence "ApplicationNumber" header := by
  unfold locateColumns
  rw [locate_general (fun m => m.applicationNumberColumnIndex) "ApplicationNumber"
      locateStep_app header initialMapping 0]
  by_cases h : lastOccurrence "ApplicationNumber" header = -1
  · rw [if_pos h, h]
    rfl
  · rw [if_neg h]
    omega

lemma locate_recv_eq (header : List String) :
    (locateColumns header).receivedDateColumnIndex =
      lastOccurrence "LodgementDate" header := by
  unfold locateColumns
  rw [locate_general (fun m => m.receivedDateColumnIndex) "LodgementDate"
      locateStep_recv header initialMapping 0]
  by_cases h : lastOccurrence "LodgementDate" header = -1
  · rw [if_pos h, h]
    rfl
  · rw [if_neg h]
    omega

lemma locate_desc_eq (header : List String) :
    (locateColumns header).descriptionColumnIndex =
      lastOccurrence "ApplicationDesc" header := by
  unfold locateColumns
  rw [locate_general (fun m => m.descriptionColumnIndex) "ApplicationDesc"
      locateStep_desc header initialMapping 0]
  by_cases h : lastOccurrence "ApplicationDesc" header = -1
  · rw [if_pos h, h]
    rfl
  · rw [if_neg h]
    omega

lemma locate_a1_eq (header : List String) :
    (locateColumns header).addressColumnIndex1 =
      lastOccurrence "PropertyAddress" header := by
  unfold locateColumns
  rw [locate_general (fun m => m.addressColumnIndex1) "PropertyAddress"
      locateStep_a1 header initialMapping 0]
  by_cases h : lastOccurrence "PropertyAddress" header = -1
  · rw [if_pos h, h]
    rfl
  · rw [if_neg h]
    omega

lemma locate_a2_eq (header : List String) :
    (locateColumns header).addressColumnIndex2 =
      lastOccurrence "PropertySuburbPostCode" header := by
  unfold locateColumns
  rw [locate_general (fun m => m.addressColumnIndex2) "PropertySuburbPostCode"
      locateStep_a2 header initialMapping 0]
  by_cases h : lastOccurrence "PropertySuburbPostCode" header = -1
  · rw [if_pos h, h]
    rfl
  · rw [if_neg h]
    omega

lemma lastOccurrence_spec (name : String) :
    ∀ l : List String, lastOccurrence name l = -1 ∨
      (0 ≤ lastOccurrence name l ∧ (lastOccurrence name l).toNat < l.length ∧
       l.getD (lastOccurrence name l).toNat "" = name)
  | [] => Or.inl rfl
  | c :: cs => by
    rcases lastOccurrence_spec name cs with h | ⟨h0, hlt, hget⟩
    · unfold lastOccurrence
      rw [if_pos h]
      by_cases hc : c = name
      · right
        rw [if_pos hc]
        refine ⟨by omega, by simp, ?_⟩
        simpa using hc
      · left
        rw [if_neg hc]
    · right
      have hne : lastOccurrence name cs ≠ -1 := by omega
      unfold lastOccurrence
      rw [if_neg hne]
      refine ⟨by omega, ?_, ?_⟩
      · have h1 : (lastOccurrence name cs + 1).toNat = (lastOccurrence name cs).toNat + 1 := by omega
        rw [h1]
        simpa using hlt
      · have h1 : (lastOccurrence name cs + 1).toNat = (lastOccurrence name cs).toNat + 1 := by omega
        rw [h1]
        simpa using hget

lemma slotInv_of (name : String) (l : List String) : slotInv (lastOccurrence name l) l name := by
  intro hne
  rcases lastOccurrence_spec name l with h | h
  · exact absurd h hne
  · exact h

lemma momentStrict_eq_amended (s : String) : momentStrictParse s = specAmendedParse s := by
  unfold momentStrictParse specAmendedParse
  cases hp : parseFields s with
  | none => rfl
  | some t =>
    obtain ⟨d, mo, y, h, mi, se, pm⟩ := t
    simp only
    have hle : ((if pm then (if h < 12 then h + 12 else h) else (if h = 12 then 0 else h)) ≤ 24) ↔
        (h ≤ 24) := by
      cases pm <;> simp only [Bool.false_eq_true, if_false, if_true] <;> split_ifs <;> omega
    have h24 : ((if pm then (if h < 12 then h + 12 else h) else (if h = 12 then 0 else h)) = 24) ↔
        (h = 24) := by
      cases pm <;> simp only [Bool.false_eq_true, if_false, if_true] <;> split_ifs <;>
        first
        | omega
        | simp_all
    simp only [hle, h24]

lemma extractRecord_ok_inv (m : HeaderMapping) (url d : String) (row : List String)
    (res : Option Record) (h : extractRecord m url d row = Except.ok res) :
    res = (if appNumberSource m row ≠ "" ∧ addressSource m row ≠ "" then
             some { applicationNumber := appNumberSource m row
                    address := addressSource m row
                    description := if descSource m row = "" then "No description provided"
                                   else descSource m row
                    informationUrl := url
                    commentUrl := CommentUrl
                    scrapeDate := d
                    receivedDate := normalizeDate (recvSource m row) }
           else none) := by
  unfold extractRecord at h
  cases happ : getCellE row m.applicationNumberColumnIndex with
  | error e =>
    rw [happ] at h
    exact Except.noConfusion h
  | ok cellApp =>
    rw [happ] at h
    simp only [exbind] at h
    cases ha1 : optCellE row m.addressColumnIndex1 with
    | error e =>
      rw [ha1] at h
      exact Except.noConfusion h
    | ok cellA1 =>
      rw [ha1] at h
      simp only [exbind] at h
      cases ha2 : optCellE row m.addressColumnIndex2 with
      | error e =>
        rw [ha2] at h
        exact Except.noConfusion h
      | ok cellA2 =>
        rw [ha2] at h
        simp only [exbind] at h
        cases hde : optCellE row m.descriptionColumnIndex with
        | error e =>
          rw [hde] at h
          exact Except.noConfusion h
        | ok cellDesc =>
          rw [hde] at h
          simp only [exbind] at h
          cases hre : optCellE row m.receivedDateColumnIndex with
          | error e =>
            rw [hre] at h
            exact Except.noConfusion h
          | ok cellRecv =>
            rw [hre] at h
            simp only [exbind] at h
            rw [getCellE_ok_val row _ cellApp happ] at h
            rw [optCellE_ok_str row _ cellA1 ha1] at h
            rw [optCellE_ok_str row _ cellA2 ha2] at h
            rw [optCellE_ok_str row _ cellDesc hde] at h
            rw [optCellE_ok_opt row _ cellRecv hre] at h
            unfold appNumberSource addressSource addr1Source addr2Source descSource recvSource
            by_cases hcond : trimJS (row.getD m.applicationNumberColumnIndex.toNat "") ≠ "" ∧
                combineAddress
                  (if m.addressColumnIndex1 < 0 then ""
                   else trimJS (row.getD m.addressColumnIndex1.toNat ""))
                  (if m.addressColumnIndex2 < 0 then ""
                   else trimJS (row.getD m.addressColumnIndex2.toNat "")) ≠ ""
            · rw [if_pos hcond] at h
              rw [if_pos hcond]
              exact (Except.ok.inj h).symm
            · rw [if_neg hcond] at h
              rw [if_neg hcond]
              exact (Except.ok.inj h).symm

/-- Claim C1, counterexample.  For the header row of the claim and the
single data row whose lodgement date is "1/02/2020 9:00:00 AM", the
pipeline emits exactly one record with the claimed application number,
address and description — but its received date is the empty string, not
"2020-02-01": the strict format requires a two-digit hour, so the
single-digit "9" fails to parse. -/
theorem c1_end_to_end_counterexample :
    processCsv noFault "https://data.sa.gov.au/example.csv" "2020-06-01" []
      [["ApplicationNumber", "PropertyAddress", "PropertySuburbPostCode",
        "ApplicationDesc", "LodgementDate"],
       ["DA123", "1 Smith St", "Adelaide 5000", "New shed", "1/02/2020 9:00:00 AM"]] =
      Except.ok [{ applicationNumber := "DA123"
                   address := "1 Smith St Adelaide 5000"
                   description := "New shed"
                   informationUrl := "https://data.sa.gov.au/example.csv"
                   commentUrl := CommentUrl
                   scrapeDate := "2020-06-01"
                   receivedDate := "" }] ∧
    ("" : String) ≠ "2020-02-01" := by
  constructor
  · rfl
  · decide

/-- Claim C1, as amended.  For the header row
["ApplicationNumber","PropertyAddress","PropertySuburbPostCode",
"ApplicationDesc","LodgementDate"] and the single data row
["DA123","1 Smith St","Adelaide 5000","New shed","1/02/2020 9:00:00 AM"],
the pipeline (field location followed by record extraction) emits exactly
one record with application_number "DA123", address
"1 Smith St Adelaide 5000", description "New shed", and received_date ""
(the raw date fails the strict two-digit-hour parse, which degrades to an
empty received date). -/
theorem c1_end_to_end :
    processCsv noFault "https://data.sa.gov.au/example.csv" "2020-06-01" []
      [["ApplicationNumber", "PropertyAddress", "PropertySuburbPostCode",
        "ApplicationDesc", "LodgementDate"],
       ["DA123", "1 Smith St", "Adelaide 5000", "New shed", "1/02/2020 9:00:00 AM"]] =
      Except.ok [{ applicationNumber := "DA123"
                   address := "1 Smith St Adelaide 5000"
                   description := "New shed"
                   informationUrl := "https://data.sa.gov.au/example.csv"
                   commentUrl := CommentUrl
                   scrapeDate := "2020-06-01"
                   receivedDate := "" }] := by
  rfl

/-- Claim C2, counterexample.  The input "5/03/2018 24:00:00 A" does not
conform to the claimed pattern (its meridiem marker is neither "AM" nor
"PM", and hour 24 is not a valid clock hour), yet the date normalizer
does not return the empty string: moment's lenient meridiem token accepts
the bare "A" and hour 24:00:00 is accepted and rolled over, producing
"2018-03-06" — which is not the written date portion either. -/
theorem c2_normalize_counterexample :
    specConformsDMY "5/03/2018 24:00:00 A" = false ∧
    normalizeDate (some "5/03/2018 24:00:00 A") = "2018-03-06" ∧
    ("2018-03-06" : String) ≠ "" := by
  refine ⟨by decide, by decide, by decide⟩

/-- Claim C2, as amended.  The date normalizer, applied to any raw date
string, returns the empty string whenever the input does not conform
exactly to the pattern day(1 or 2 digits)/month(exactly 2 digits)/year(4
digits) hour(2):minute(2):second(2) meridiem — where the meridiem marker
is matched leniently (a case-insensitive `a` or `p`, optionally followed
by a period, an `m`, and a period) — or encodes an invalid calendar
value (month outside 1-12, day outside the month, minute or second above
59, hour above 24, or hour 24 with non-zero minutes or seconds); on
success it returns the date portion reformatted as YYYY-MM-DD, except
that hour 24 (end-of-day midnight) yields the following calendar day.
In particular "5/03/2018 12:00:00 AM" and "05/03/2018 12:00:00 AM" both
normalize to "2018-03-05", while "2018-03-05", the empty string, and an
absent input all normalize to "". -/
theorem c2_normalize_amended :
    (∀ x : Option String, normalizeDate x = specAmendedNormalize x) ∧
    normalizeDate (some "5/03/2018 12:00:00 AM") = "2018-03-05" ∧
    normalizeDate (some "05/03/2018 12:00:00 AM") = "2018-03-05" ∧
    normalizeDate (some "2018-03-05") = "" ∧
    normalizeDate (some "") = "" ∧
    normalizeDate none = "" := by
  refine ⟨?_, by decide, by decide, by decide, by decide, rfl⟩
  intro x
  cases x with
  | none => rfl
  | some s =>
    unfold normalizeDate specAmendedNormalize
    dsimp only
    rw [momentStrict_eq_amended s]

/-- Claim C5.  The address combiner concatenates the two fragments with
exactly one single-space separator inserted only when both are
non-empty, then trims and collapses every run of two-or-more whitespace
characters to one space; in particular the five listed evaluations
hold. -/
theorem c5_combine_address :
    combineAddress "" "" = "" ∧
    combineAddress "A" "" = "A" ∧
    combineAddress "" "B" = "B" ∧
    combineAddress "A" "B" = "A B" ∧
    combineAddress "A  " " B" = "A B" ∧
    ∀ a b : String, combineAddress a b =
      collapseWS (trimJS (a ++ (if a ≠ "" ∧ b ≠ "" then " " else "") ++ b)) := by
  refine ⟨by decide, by decide, by decide, by decide, by decide, fun a b => rfl⟩

/-- Claim C6.  The field locator scans the header cells left to right
comparing each by case-sensitive exact equality (no trimming) against
the five recognized names; each slot equals the index of the last
occurrence of its name (the scan overwrites, so the last occurrence
wins) and keeps the absent marker -1 when the name never occurs.  The
locator is a total function, so it never raises.  The final conjunct
shows the comparison is exact: a lower-cased name, a name with
surrounding whitespace, or a name with trailing whitespace never
match. -/
theorem c6_field_locator :
    (∀ header : List String,
      (locateColumns header).applicationNumberColumnIndex =
        lastOccurrence "ApplicationNumber" header ∧
      (locateColumns header).receivedDateColumnIndex =
        lastOccurrence "LodgementDate" header ∧
      (locateColumns header).descriptionColumnIndex =
        lastOccurrence "ApplicationDesc" header ∧
      (locateColumns header).addressColumnIndex1 =
        lastOccurrence "PropertyAddress" header ∧
      (locateColumns header).addressColumnIndex2 =
        lastOccurrence "PropertySuburbPostCode" header) ∧
    locateColumns ["applicationnumber", " ApplicationNumber", "PropertyAddress "] =
      initialMapping := by
  constructor
  · intro header
    exact ⟨locate_app_eq header, locate_recv_eq header, locate_desc_eq header,
           locate_a1_eq header, locate_a2_eq header⟩
  · rfl

/-- Claim C8.  Under the insert-if-absent policy of the upsert gateway,
upserting two records with the same application-number key (here with
differing descriptions) leaves exactly one stored row retaining the
first record entirely, and the reported outcomes are created = true for
the first upsert and created = false for the second. -/
theorem c8_insert_if_absent (r1 r2 : Record)
    (hk : r2.applicationNumber = r1.applicationNumber)
    (_hd : r2.description ≠ r1.description) :
    insertRowE noFault [] r1 = Except.ok ([r1], true) ∧
    insertRowE noFault [r1] r2 = Except.ok ([r1], false) := by
  constructor
  · unfold insertRowE noFault insertOrIgnore
    simp
  · unfold insertRowE noFault insertOrIgnore
    rw [hk]
    simp

/-- Witness for C8 at concrete records with equal keys and differing
descriptions. -/
theorem c8_insert_if_absent_witness :
    insertRowE noFault []
      { applicationNumber := "DA7", address := "1 A St", description := "shed",
        informationUrl := "u", commentUrl := CommentUrl, scrapeDate := "2020-01-01",
        receivedDate := "" } =
      Except.ok ([{ applicationNumber := "DA7", address := "1 A St", description := "shed",
                    informationUrl := "u", commentUrl := CommentUrl, scrapeDate := "2020-01-01",
                    receivedDate := "" }], true) ∧
    insertRowE noFault
      [{ applicationNumber := "DA7", address := "1 A St", description := "shed",
         informationUrl := "u", commentUrl := CommentUrl, scrapeDate := "2020-01-01",
         receivedDate := "" }]
      { applicationNumber := "DA7", address := "2 B St", description := "garage",
        informationUrl := "u", commentUrl := CommentUrl, scrapeDate := "2020-01-01",
        receivedDate := "" } =
      Except.ok ([{ applicationNumber := "DA7", address := "1 A St", description := "shed",
                    informationUrl := "u", commentUrl := CommentUrl, scrapeDate := "2020-01-01",
                    receivedDate := "" }], false) :=
  c8_insert_if_absent
    { applicationNumber := "DA7", address := "1 A St", description := "shed",
      informationUrl := "u", commentUrl := CommentUrl, scrapeDate := "2020-01-01",
      receivedDate := "" }
    { applicationNumber := "DA7", address := "2 B St", description := "garage",
      informationUrl := "u", commentUrl := CommentUrl, scrapeDate := "2020-01-01",
      receivedDate := "" }
    (by decide) (by decide)

/-- Claim C3.  For every header mapping and every data row whose cell
reads succeed, the record extractor emits a record if and only if both
the trimmed application number and the combined address are non-empty;
when either is empty the row produces no record and no error
(`Except.ok none`), and no stored row: the row loop continues with an
unchanged store. -/
theorem c3_row_emission :
    (∀ (m : HeaderMapping) (url d : String) (row : List String) (res : Option Record),
      extractRecord m url d row = Except.ok res →
        ((∃ r, res = some r) ↔ (appNumberSource m row ≠ "" ∧ addressSource m row ≠ ""))) ∧
    (∀ (faulty : Record → Bool) (m : HeaderMapping) (url d : String) (db : List Record)
       (row : List String) (rest : List (List String)),
      extractRecord m url d row = Except.ok none →
        runRows faulty m url d db (row :: rest) = runRows faulty m url d db rest) := by
  constructor
  · intro m url d row res h
    have hres := extractRecord_ok_inv m url d row res h
    by_cases hc : appNumberSource m row ≠ "" ∧ addressSource m row ≠ ""
    · rw [if_pos hc] at hres
      exact iff_of_true ⟨_, hres⟩ hc
    · rw [if_neg hc] at hres
      refine iff_of_false ?_ hc
      rintro ⟨r, hr⟩
      rw [hres] at hr
      exact Option.noConfusion hr
  · intro faulty m url d db row rest h
    simp only [runRows, h]

/-- Witness for C3: a row whose application number trims to the empty
string while its address is present is dropped — the extractor returns
no record and the row loop leaves the store unchanged. -/
theorem c3_row_emission_witness :
    (¬ ∃ r : Record, (none : Option Record) = some r) ∧
    runRows noFault (locateColumns ["ApplicationNumber", "PropertyAddress"]) "u" "2020-01-01"
        [] [["", "1 Main St"], ["DA2", "2 High St"]] =
      runRows noFault (locateColumns ["ApplicationNumber", "PropertyAddress"]) "u" "2020-01-01"
        [] [["DA2", "2 High St"]] := by
  have hx : extractRecord (locateColumns ["ApplicationNumber", "PropertyAddress"]) "u"
      "2020-01-01" ["", "1 Main St"] = Except.ok none := rfl
  constructor
  · intro hex
    have hcond := (c3_row_emission.1 (locateColumns ["ApplicationNumber", "PropertyAddress"])
      "u" "2020-01-01" ["", "1 Main St"] none hx).mp hex
    exact hcond.1 (by decide)
  · exact c3_row_emission.2 noFault (locateColumns ["ApplicationNumber", "PropertyAddress"])
      "u" "2020-01-01" [] ["", "1 Main St"] [["DA2", "2 High St"]] hx

/-- Claim C4.  For every emitted record, the description field is the
sentinel "No description provided" when the trimmed source description
cell is empty (or the description column is absent, in which case the
source reads as empty), and is the trimmed source value otherwise. -/
theorem c4_description_sentinel :
    ∀ (m : HeaderMapping) (url d : String) (row : List String) (r : Record),
      extractRecord m url d row = Except.ok (some r) →
        r.description =
          (if descSource m row = "" then "No description provided" else descSource m row) := by
  intro m url d row r h
  have hres := extractRecord_ok_inv m url d row (some r) h
  by_cases hc : appNumberSource m row ≠ "" ∧ addressSource m row ≠ ""
  · rw [if_pos hc] at hres
    rw [Option.some.inj hres]
  · rw [if_neg hc] at hres
    exact Option.noConfusion hres

/-- Witness for C4: a row whose description cell is whitespace-only gets
the sentinel description. -/
theorem c4_description_sentinel_witness :
    ({ applicationNumber := "DA5", address := "3 Low St",
       description := "No description provided", informationUrl := "u",
       commentUrl := CommentUrl, scrapeDate := "2020-01-01", receivedDate := "" } :
        Record).description = "No description provided" := by
  have hx : extractRecord
      (locateColumns ["ApplicationNumber", "PropertyAddress", "ApplicationDesc"])
      "u" "2020-01-01" ["DA5", "3 Low St", "   "] =
      Except.ok (some
        { applicationNumber := "DA5", address := "3 Low St",
          description := "No description provided", informationUrl := "u",
          commentUrl := CommentUrl, scrapeDate := "2020-01-01", receivedDate := "" }) := rfl
  have h := c4_description_sentinel
    (locateColumns ["ApplicationNumber", "PropertyAddress", "ApplicationDesc"])
    "u" "2020-01-01" ["DA5", "3 Low St", "   "] _ hx
  rw [h]
  decide

/-- Claim C7.  For every CSV with a header row, the pipeline proceeds to
row extraction if and only if the application-number slot is present and
at least one of the two address-part slots is present; otherwise the
CSV contributes nothing (`Except.ok db`, no error) and the driver
continues with the next source unchanged. -/
theorem c7_csv_gate :
    ∀ (faulty : Record → Bool) (url d : String) (db : List Record) (header : List String)
      (dataRows : List (List String)) (rest : List (String × List (List String))),
      (processCsv faulty url d db (header :: dataRows) =
        if 0 ≤ (locateColumns header).applicationNumberColumnIndex ∧
           (0 ≤ (locateColumns header).addressColumnIndex1 ∨
            0 ≤ (locateColumns header).addressColumnIndex2)
        then runRows faulty (locateColumns header) url d db dataRows
        else Except.ok db) ∧
      (runMain faulty d db ((url, header :: dataRows) :: rest) =
        if 0 ≤ (locateColumns header).applicationNumberColumnIndex ∧
           (0 ≤ (locateColumns header).addressColumnIndex1 ∨
            0 ≤ (locateColumns header).addressColumnIndex2)
        then (match runRows faulty (locateColumns header) url d db dataRows with
              | Except.error e => Except.error e
              | Except.ok db2 => runMain faulty d db2 rest)
        else runMain faulty d db rest) := by
  intro faulty url d db header dataRows rest
  have hgate : processCsv faulty url d db (header :: dataRows) =
      if 0 ≤ (locateColumns header).applicationNumberColumnIndex ∧
         (0 ≤ (locateColumns header).addressColumnIndex1 ∨
          0 ≤ (locateColumns header).addressColumnIndex2)
      then runRows faulty (locateColumns header) url d db dataRows
      else Except.ok db := by
    simp only [processCsv]
    by_cases hp : 0 ≤ (locateColumns header).applicationNumberColumnIndex ∧
        (0 ≤ (locateColumns header).addressColumnIndex1 ∨
         0 ≤ (locateColumns header).addressColumnIndex2)
    · rw [if_neg (by omega), if_pos hp]
    · rw [if_pos (by omega), if_neg hp]
  refine ⟨hgate, ?_⟩
  simp only [runMain, hgate]
  by_cases hp : 0 ≤ (locateColumns header).applicationNumberColumnIndex ∧
      (0 ≤ (locateColumns header).addressColumnIndex1 ∨
       0 ≤ (locateColumns header).addressColumnIndex2)
  · rw [if_pos hp, if_pos hp]
  · rw [if_neg hp, if_neg hp]

/-- Claim C9.  A storage-layer fault on an upsert is surfaced to the
caller as an error outcome (nothing stored, no retry); a faulting row
aborts the row loop, and an erroring CSV aborts the whole driver run
(remaining sources are not processed). -/
theorem c9_storage_fault :
    (∀ (faulty : Record → Bool) (db : List Record) (r : Record), faulty r = true →
      insertRowE faulty db r = Except.error ()) ∧
    (∀ (faulty : Record → Bool) (m : HeaderMapping) (url d : String) (db : List Record)
       (row : List String) (rest : List (List String)) (r : Record),
      extractRecord m url d row = Except.ok (some r) → faulty r = true →
      runRows faulty m url d db (row :: rest) = Except.error ()) ∧
    (∀ (faulty : Record → Bool) (d : String) (db : List Record) (url : String)
       (rows : List (List String)) (rest : List (String × List (List String))),
      processCsv faulty url d db rows = Except.error () →
      runMain faulty d db ((url, rows) :: rest) = Except.error ()) := by
  refine ⟨?_, ?_, ?_⟩
  · intro faulty db r hf
    unfold insertRowE
    rw [if_pos hf]
  · intro faulty m url d db row rest r hx hf
    have he : insertRowE faulty db r = Except.error () := by
      unfold insertRowE
      rw [if_pos hf]
    simp only [runRows, hx, he]
  · intro faulty d db url rows rest hp
    simp only [runMain, hp]

/-- Witness for C9 at a concrete faulting oracle, record, row loop and
driver run. -/
theorem c9_storage_fault_witness :
    insertRowE (fun r => r.applicationNumber == "DA1") []
      { applicationNumber := "DA1", address := "2 X St",
        description := "No description provided", informationUrl := "u",
        commentUrl := CommentUrl, scrapeDate := "2020-01-01", receivedDate := "" } =
      Except.error () ∧
    runRows (fun r => r.applicationNumber == "DA1")
      (locateColumns ["ApplicationNumber", "PropertyAddress"]) "u" "2020-01-01" []
      [["DA1", "2 X St"], ["DA2", "3 Y St"]] = Except.error () ∧
    runMain (fun r => r.applicationNumber == "DA1") "2020-01-01" []
      [("u", [["ApplicationNumber", "PropertyAddress"], ["DA1", "2 X St"]]), ("v", [])] =
      Except.error () := by
  refine ⟨?_, ?_, ?_⟩
  · exact c9_storage_fault.1 (fun r => r.applicationNumber == "DA1") []
      { applicationNumber := "DA1", address := "2 X St",
        description := "No description provided", informationUrl := "u",
        commentUrl := CommentUrl, scrapeDate := "2020-01-01", receivedDate := "" } (by decide)
  · exact c9_storage_fault.2.1 (fun r => r.applicationNumber == "DA1")
      (locateColumns ["ApplicationNumber", "PropertyAddress"]) "u" "2020-01-01" []
      ["DA1", "2 X St"] [["DA2", "3 Y St"]]
      { applicationNumber := "DA1", address := "2 X St",
        description := "No description provided", informationUrl := "u",
        commentUrl := CommentUrl, scrapeDate := "2020-01-01", receivedDate := "" }
      rfl (by decide)
  · exact c9_storage_fault.2.2 (fun r => r.applicationNumber == "DA1") "2020-01-01" [] "u"
      [["ApplicationNumber", "PropertyAddress"], ["DA1", "2 X St"]] [("v", [])] rfl

/-- Claim C10.  For every header row, every slot of the header mapping
that is not the absent marker -1 holds an index within the header row,
and the header cell at that index is the recognized name of the slot;
consequently, on a rectangular row (same length as the header), every
cell access the record extractor makes through a present slot is in
bounds, so the extraction succeeds without a thrown error whenever the
unguarded application-number slot is present. -/
theorem c10_slot_safety :
    ∀ header : List String,
      slotInv (locateColumns header).applicationNumberColumnIndex header "ApplicationNumber" ∧
      slotInv (locateColumns header).receivedDateColumnIndex header "LodgementDate" ∧
      slotInv (locateColumns header).descriptionColumnIndex header "ApplicationDesc" ∧
      slotInv (locateColumns header).addressColumnIndex1 header "PropertyAddress" ∧
      slotInv (locateColumns header).addressColumnIndex2 header "PropertySuburbPostCode" ∧
      (∀ (row : List String) (url d : String), row.length = header.length →
        (locateColumns header).applicationNumberColumnIndex ≠ -1 →
        exceptOk (extractRecord (locateColumns header) url d row) = true) := by
  intro header
  have hA : slotInv (locateColumns header).applicationNumberColumnIndex header
      "ApplicationNumber" := by
    rw [locate_app_eq header]
    exact slotInv_of "ApplicationNumber" header
  have hR : slotInv (locateColumns header).receivedDateColumnIndex header "LodgementDate" := by
    rw [locate_recv_eq header]
    exact slotInv_of "LodgementDate" header
  have hD : slotInv (locateColumns header).descriptionColumnIndex header "ApplicationDesc" := by
    rw [locate_desc_eq header]
    exact slotInv_of "ApplicationDesc" header
  have h1 : slotInv (locateColumns header).addressColumnIndex1 header "PropertyAddress" := by
    rw [locate_a1_eq header]
    exact slotInv_of "PropertyAddress" header
  have h2 : slotInv (locateColumns header).addressColumnIndex2 header
      "PropertySuburbPostCode" := by
    rw [locate_a2_eq header]
    exact slotInv_of "PropertySuburbPostCode" header
  refine ⟨hA, hR, hD, h1, h2, ?_⟩
  intro row url d hlen hne
  obtain ⟨hge, hlt, _⟩ := hA hne
  have hbound1 : (locateColumns header).addressColumnIndex1 < 0 ∨
      (0 ≤ (locateColumns header).addressColumnIndex1 ∧
       (locateColumns header).addressColumnIndex1.toNat < row.length) := by
    by_cases hx : (locateColumns header).addressColumnIndex1 < 0
    · exact Or.inl hx
    · obtain ⟨hg, hl, _⟩ := h1 (by omega)
      refine Or.inr ⟨hg, ?_⟩
      rw [hlen]
      exact hl
  have hbound2 : (locateColumns header).addressColumnIndex2 < 0 ∨
      (0 ≤ (locateColumns header).addressColumnIndex2 ∧
       (locateColumns header).addressColumnIndex2.toNat < row.length) := by
    by_cases hx : (locateColumns header).addressColumnIndex2 < 0
    · exact Or.inl hx
    · obtain ⟨hg, hl, _⟩ := h2 (by omega)
      refine Or.inr ⟨hg, ?_⟩
      rw [hlen]
      exact hl
  have hboundD : (locateColumns header).descriptionColumnIndex < 0 ∨
      (0 ≤ (locateColumns header).descriptionColumnIndex ∧
       (locateColumns header).descriptionColumnIndex.toNat < row.length) := by
    by_cases hx : (locateColumns header).descriptionColumnIndex < 0
    · exact Or.inl hx
    · obtain ⟨hg, hl, _⟩ := hD (by omega)
      refine Or.inr ⟨hg, ?_⟩
      rw [hlen]
      exact hl
  have hboundR : (locateColumns header).receivedDateColumnIndex < 0 ∨
      (0 ≤ (locateColumns header).receivedDateColumnIndex ∧
       (locateColumns header).receivedDateColumnIndex.toNat < row.length) := by
    by_cases hx : (locateColumns header).receivedDateColumnIndex < 0
    · exact Or.inl hx
    · obtain ⟨hg, hl, _⟩ := hR (by omega)
      refine Or.inr ⟨hg, ?_⟩
      rw [hlen]
      exact hl
  obtain ⟨c1, hc1⟩ := optCellE_exists_ok row _ hbound1
  obtain ⟨c2, hc2⟩ := optCellE_exists_ok row _ hbound2
  obtain ⟨c3, hc3⟩ := optCellE_exists_ok row _ hboundD
  obtain ⟨c4, hc4⟩ := optCellE_exists_ok row _ hboundR
  have hcApp : getCellE row (locateColumns header).applicationNumberColumnIndex =
      Except.ok (row.getD (locateColumns header).applicationNumberColumnIndex.toNat "") := by
    refine getCellE_is_ok row _ hge ?_
    rw [hlen]
    exact hlt
  unfold extractRecord
  rw [hcApp]
  simp only [exbind]
  rw [hc1]
  simp only [exbind]
  rw [hc2]
  simp only [exbind]
  rw [hc3]
  simp only [exbind]
  rw [hc4]
  simp only [exbind]
  repeat' split
  all_goals rfl

/-- Witness for C10: for the full five-column header, the
application-number slot is a valid index naming its header cell, and the
extraction of a rectangular row succeeds without error. -/
theorem c10_slot_safety_witness :
    (0 ≤ (locateColumns ["ApplicationNumber", "PropertyAddress", "PropertySuburbPostCode",
        "ApplicationDesc", "LodgementDate"]).applicationNumberColumnIndex ∧
     (locateColumns ["ApplicationNumber", "PropertyAddress", "PropertySuburbPostCode",
        "ApplicationDesc", "LodgementDate"]).applicationNumberColumnIndex.toNat <
       (["ApplicationNumber", "PropertyAddress", "PropertySuburbPostCode",
         "ApplicationDesc", "LodgementDate"] : List String).length ∧
     (["ApplicationNumber", "PropertyAddress", "PropertySuburbPostCode",
       "ApplicationDesc", "LodgementDate"] : List String).getD
       (locateColumns ["ApplicationNumber", "PropertyAddress", "PropertySuburbPostCode",
         "ApplicationDesc", "LodgementDate"]).applicationNumberColumnIndex.toNat "" =
       "ApplicationNumber") ∧
    exceptOk (extractRecord
      (locateColumns ["ApplicationNumber", "PropertyAddress", "PropertySuburbPostCode",
        "ApplicationDesc", "LodgementDate"]) "u" "2020-01-01"
      ["DA123", "1 Smith St", "Adelaide 5000", "New shed", "1/02/2020 9:00:00 AM"]) = true := by
  constructor
  · exact (c10_slot_safety ["ApplicationNumber", "PropertyAddress", "PropertySuburbPostCode",
      "ApplicationDesc", "LodgementDate"]).1 (by decide)
  · exact (c10_slot_safety ["ApplicationNumber", "PropertyAddress", "PropertySuburbPostCode",
      "ApplicationDesc", "LodgementDate"]).2.2.2.2.2
      ["DA123", "1 Smith St", "Adelaide 5000", "New shed", "1/02/2020 9:00:00 AM"]
      "u" "2020-01-01" rfl (by decide)

end Playford
